import Mathlib

/-!
Shallow embedding of the startup wiring of mosdns-cn (`main.go`).

The program reads command-line options, builds a `cnHandler` (the dispatch
engine handler), and starts one UDP and one TCP server sharing that handler.
External collaborator packages (net/url, the upstream transport, the domain
and netlist matchers) are not part of the source file; they are abstracted
as an `Env` record of functions, and their data as type parameters.
A `mlog.S().Fatalf` call terminates the process, so the whole of `run` is
modelled as an `Except`-valued function: `Except.error` is a fatal exit.
-/

namespace MosdnsCn

/-- Command-line options of the program (the `Opts` struct, `main.go` lines
42-52).  `CacheSize` and `LocalLatency` are Go `int`s, modelled as `Int`;
the repeatable flags are string lists. -/
structure GoOpts where
  serverAddr : String
  cacheSize : Int
  localUpstream : List String
  localIP : List String
  localDomain : List String
  localLatency : Int
  remoteUpstream : List String
  remoteDomain : List String
  debug : Bool

/-- External collaborators used by `run` and `splitArgs`, abstracted as
functions: `net/url` parsing and rendering over an abstract URL type `U`,
`upstream.NewFastUpstream` producing an abstract upstream `FU`, and the
matcher file loaders producing lists of abstract domain entries `D` and of
netlist entries (keyed by `Nat` so that sorting is meaningful).  Fallible
collaborators return `Except String`. -/
structure Env (U FU D : Type) where
  urlParse : String → Except String U
  urlQueryGet : U → String → String
  urlClearRawQuery : U → U
  urlRender : U → String
  newFastUpstream : String → String → String → Except String FU
  loadDomainFile : String → Except String (List D)
  loadIPFile : String → Except String (List Nat)

/-- Modelled from the spec: `wrapFU` (defined outside `main.go`) wraps one
FastUpstream together with its trust flag into an Upstream Handle
("wraps one configured resolver endpoint with a trust flag"). -/
structure UpstreamHandle (FU : Type) where
  fu : FU
  trusted : Bool

/-- Modelled from the spec: the `cnHandler` struct (defined outside
`main.go`) holds the fields `run` assigns: the optional cache, the two
upstream handle lists, the two optional domain matchers, the A/AAAA IP
matcher's netlist, and the local-latency duration.  The cache is `none`
when no cache object is constructed; a constructed cache is recorded by the
`(shardNum, perShardSize)` arguments passed to `mem_cache.NewMemCache`.
Domain matchers are `none` when never assigned (Go `nil`), `some entries`
when built from the loaded entries.  `localLatency` is a Go
`time.Duration`, i.e. a number of nanoseconds in `int64`. -/
structure CnHandler (FU D : Type) where
  cache : Option (Int × Int)
  localUpstream : List (UpstreamHandle FU)
  remoteUpstream : List (UpstreamHandle FU)
  localDomain : Option (List D)
  remoteDomain : Option (List D)
  localIP : List Nat
  localLatency : Int

/-- One server created by `server.NewServer(network, addr, WithHandler(h))`:
the network name, the bind address, and the handler it dispatches to. -/
structure GoServer (FU D : Type) where
  network : String
  addr : String
  handler : CnHandler FU D

/-- Everything a successful `run` has built: the handler and the servers it
started, in creation order. -/
structure RunResult (FU D : Type) where
  handler : CnHandler FU D
  servers : List (GoServer FU D)

/-- Whether an `Except` value is a success. -/
def isOkE {ε α : Type} : Except ε α → Bool
  | .ok _ => true
  | .error _ => false

/-- Does the character list starting here begin with `pat`? (helper for the
Go `strings.Contains` model). -/
def listStartsWith : List Char → List Char → Bool
  | _, [] => true
  | [], _ :: _ => false
  | a :: as, b :: bs => a == b && listStartsWith as bs

/-- Does the character list contain `pat` as a contiguous subsequence? -/
def listContainsSeq : List Char → List Char → Bool
  | [], pat => pat.isEmpty
  | a :: as, pat => listStartsWith (a :: as) pat || listContainsSeq as pat

/-- Go `strings.Contains(s, sub)`: substring containment. -/
def goContains (s sub : String) : Bool :=
  listContainsSeq s.data sub.data

/-- The scheme-defaulting step of `splitArgs` (`main.go` lines 169-171):
a string without "://" gets the implicit scheme `udp`. -/
def schemeNormalize (s : String) : String :=
  if goContains s "://" then s else "udp://" ++ s

/-- The URL-consuming half of `splitArgs` (`main.go` lines 172-181):
parse the string; on success read the `socks5` and `netaddr` query
parameters, clear the raw query, and render the URL as the upstream
address. -/
def splitArgsURL {U FU D : Type} (env : Env U FU D) (t : String) :
    Except String (String × String × String) :=
  match env.urlParse t with
  | .error e => .error ("invalid upstream address, " ++ e)
  | .ok u =>
    .ok (env.urlRender (env.urlClearRawQuery u),
         env.urlQueryGet u "socks5", env.urlQueryGet u "netaddr")

/-- `splitArgs` (`main.go` lines 167-182): returns
`(addr, socks5, netAddr)` or a parse error. -/
def splitArgs {U FU D : Type} (env : Env U FU D) (s : String) :
    Except String (String × String × String) :=
  splitArgsURL env (schemeNormalize s)

/-- The upstream-building loop body of `run` (`main.go` lines 82-98 and
100-116), indexed: element `i` is split, turned into a FastUpstream, and
wrapped with `trusted := (i == 0)`; the first failure is fatal. -/
def buildUpstreamsAux {U FU D : Type} (env : Env U FU D) (lbl : String) :
    Nat → List String → Except String (List (UpstreamHandle FU))
  | _, [] => .ok []
  | i, s :: rest =>
    match splitArgs env s with
    | .error e =>
      .error ("Failed to parse " ++ lbl ++ " upstream #" ++ toString i ++ ": " ++ e)
    | .ok (addr, socks5, netAddr) =>
      match env.newFastUpstream addr socks5 netAddr with
      | .error e =>
        .error ("Failed to load " ++ lbl ++ " upstream #" ++ toString i ++ ": " ++ e)
      | .ok fu =>
        match buildUpstreamsAux env lbl (i + 1) rest with
        | .error e => .error e
        | .ok tl => .ok ({ fu := fu, trusted := i == 0 } :: tl)

/-- The whole upstream loop, starting at index 0. -/
def buildUpstreams {U FU D : Type} (env : Env U FU D) (lbl : String)
    (ss : List String) : Except String (List (UpstreamHandle FU)) :=
  buildUpstreamsAux env lbl 0 ss

/-- `batchLoadDomainFile` (`main.go` lines 184-191): load each file into the
mix matcher in order, stopping at the first failure; the matcher's contents
are the concatenation of the loaded entries. -/
def batchLoadDomainFile {U FU D : Type} (env : Env U FU D) :
    List String → Except String (List D)
  | [] => .ok []
  | f :: rest =>
    match env.loadDomainFile f with
    | .error e => .error e
    | .ok es =>
      match batchLoadDomainFile env rest with
      | .error e => .error e
      | .ok tl => .ok (es ++ tl)

/-- `batchLoadIPFile` (`main.go` lines 193-200): load each file into the
netlist in order, stopping at the first failure. -/
def batchLoadIPFile {U FU D : Type} (env : Env U FU D) :
    List String → Except String (List Nat)
  | [] => .ok []
  | f :: rest =>
    match env.loadIPFile f with
    | .error e => .error e
    | .ok es =>
      match batchLoadIPFile env rest with
      | .error e => .error e
      | .ok tl => .ok (es ++ tl)

/-- The cache construction of `run` (`main.go` lines 78-80): only when
`CacheSize > 8` is `mem_cache.NewMemCache(8, CacheSize/8, time.Minute)`
called; `/` is Go integer division (truncated), `Int.tdiv`. -/
def cacheOf (cacheSize : Int) : Option (Int × Int) :=
  if cacheSize > 8 then some (8, Int.tdiv cacheSize 8) else none

/-- One domain-matcher section of `run` (`main.go` lines 118-125 resp.
127-134): only a non-empty file list builds a matcher; a load failure is
fatal; an empty list leaves the handler field `nil` (`none`). -/
def loadDomainSection {U FU D : Type} (env : Env U FU D) (lbl : String)
    (files : List String) : Except String (Option (List D)) :=
  if 0 < files.length then
    match batchLoadDomainFile env files with
    | .error e => .error ("Failed to load " ++ lbl ++ " domain: " ++ e)
    | .ok ds => .ok (some ds)
  else .ok none

/-- The local-IP section of `run` (`main.go` lines 136-143): load every
file into the netlist, then `nl.Sort()` — the external sort, modelled as
`List.insertionSort (· ≤ ·)` on the entry keys — and only then is the
sorted list wrapped into the A/AAAA matcher. -/
def loadIPSection {U FU D : Type} (env : Env U FU D) (files : List String) :
    Except String (List Nat) :=
  match batchLoadIPFile env files with
  | .error e => .error ("Failed to load local ip: " ++ e)
  | .ok entries => .ok (List.insertionSort (· ≤ ·) entries)

/-- Wrap a mathematical integer into Go's two's-complement `int64`. -/
def wrap64 (x : Int) : Int :=
  (x + 9223372036854775808) % 18446744073709551616 - 9223372036854775808

/-- `time.Millisecond * time.Duration(v)` (`main.go` line 145): the
configured integer times 10^6 nanoseconds, in `int64` arithmetic.  No
clamping of zero or negative values takes place. -/
def localLatencyNs (v : Int) : Int :=
  wrap64 (1000000 * v)

/-- The go-flags defaulting of the `local-latency` option (`main.go` line
48, tag `default:"50"`): an omitted flag yields 50. -/
def resolveLocalLatencyFlag (flag : Option Int) : Int :=
  flag.getD 50

/-- The final assembly of `run` (`main.go` lines 145-162): the handler
record with all fields as assigned by `run`, and the two servers
`server.NewServer("udp"/"tcp", Opts.ServerAddr, WithHandler(h))`, both
holding the same handler. -/
def assembleResult {FU D : Type} (opts : GoOpts)
    (localUp remoteUp : List (UpstreamHandle FU))
    (localDom remoteDom : Option (List D)) (nl : List Nat) :
    RunResult FU D :=
  let h : CnHandler FU D :=
    { cache := cacheOf opts.cacheSize
      localUpstream := localUp
      remoteUpstream := remoteUp
      localDomain := localDom
      remoteDomain := remoteDom
      localIP := nl
      localLatency := localLatencyNs opts.localLatency }
  { handler := h
    servers := [ { network := "udp", addr := opts.serverAddr, handler := h },
                 { network := "tcp", addr := opts.serverAddr, handler := h } ] }

/-- `run` (`main.go` lines 69-165): cache construction, the two upstream
loops, the two domain sections, the IP section, the latency assignment and
the two servers, in source order; every `Fatalf` is an `Except.error`. -/
def run {U FU D : Type} (env : Env U FU D) (opts : GoOpts) :
    Except String (RunResult FU D) :=
  match buildUpstreams env "local" opts.localUpstream with
  | .error e => .error e
  | .ok localUp =>
    match buildUpstreams env "remote" opts.remoteUpstream with
    | .error e => .error e
    | .ok remoteUp =>
      match loadDomainSection env "local" opts.localDomain with
      | .error e => .error e
      | .ok localDom =>
        match loadDomainSection env "remote" opts.remoteDomain with
        | .error e => .error e
        | .ok remoteDom =>
          match loadIPSection env opts.localIP with
          | .error e => .error e
          | .ok nl => .ok (assembleResult opts localUp remoteUp localDom remoteDom nl)

/-- A concrete collaborator environment for evaluating the model: URLs are
represented by their strings, parsing always succeeds, query lookups are
empty, upstream construction succeeds, one domain file holds one entry,
and the single IP file holds the unsorted entries `[3, 1, 2]`. -/
def demoEnv : Env String Nat Nat :=
  { urlParse := fun s => .ok s
    urlQueryGet := fun _ _ => ""
    urlClearRawQuery := fun u => u
    urlRender := fun u => u
    newFastUpstream := fun _ _ _ => .ok 7
    loadDomainFile := fun _ => .ok [5]
    loadIPFile := fun _ => .ok [3, 1, 2] }

/-- A concrete option set: cache size 20, one local and one remote
upstream, no domain files, one IP file, local latency -3 ms. -/
def demoOpts : GoOpts :=
  { serverAddr := "127.0.0.1:5533"
    cacheSize := 20
    localUpstream := ["8.8.8.8"]
    localIP := ["cn.txt"]
    localDomain := []
    localLatency := -3
    remoteUpstream := ["1.1.1.1"]
    remoteDomain := []
    debug := false }

/-- The handler `run demoEnv demoOpts` builds. -/
def demoHandler : CnHandler Nat Nat :=
  { cache := some (8, 2)
    localUpstream := [{ fu := 7, trusted := true }]
    remoteUpstream := [{ fu := 7, trusted := true }]
    localDomain := none
    remoteDomain := none
    localIP := [1, 2, 3]
    localLatency := -3000000 }

/-- The full result of `run demoEnv demoOpts`. -/
def demoRes : RunResult Nat Nat :=
  { handler := demoHandler
    servers := [ { network := "udp", addr := "127.0.0.1:5533", handler := demoHandler },
                 { network := "tcp", addr := "127.0.0.1:5533", handler := demoHandler } ] }

/-- The environment `demoEnv` with an unreadable IP file. -/
def badEnv : Env String Nat Nat :=
  { demoEnv with loadIPFile := fun _ => .error "open cn.txt: no such file or directory" }

theorem demo_run_ok : run demoEnv demoOpts = .ok demoRes := rfl

/-- Inversion of `run`: a successful run means every loading step succeeded
and the result is the assembly of the loaded pieces. -/
theorem run_ok_elim {U FU D : Type} {env : Env U FU D} {opts : GoOpts}
    {r : RunResult FU D} (h : run env opts = .ok r) :
    ∃ localUp remoteUp localDom remoteDom nl,
      buildUpstreams env "local" opts.localUpstream = .ok localUp ∧
      buildUpstreams env "remote" opts.remoteUpstream = .ok remoteUp ∧
      loadDomainSection env "local" opts.localDomain = .ok localDom ∧
      loadDomainSection env "remote" opts.remoteDomain = .ok remoteDom ∧
      loadIPSection env opts.localIP = .ok nl ∧
      r = assembleResult opts localUp remoteUp localDom remoteDom nl := by
  unfold run at h
  split at h
  · exact Except.noConfusion h
  · split at h
    · exact Except.noConfusion h
    · split at h
      · exact Except.noConfusion h
      · split at h
        · exact Except.noConfusion h
        · split at h
          · exact Except.noConfusion h
          · injection h with h
            refine ⟨_, _, _, _, _, ?_, ?_, ?_, ?_, ?_, h.symm⟩ <;> assumption

/-- Inversion of one step of the upstream loop. -/
theorem buildUpstreamsAux_cons_elim {U FU D : Type} {env : Env U FU D}
    {lbl : String} {k : Nat} {a : String} {rest : List String}
    {hs : List (UpstreamHandle FU)}
    (h : buildUpstreamsAux env lbl k (a :: rest) = .ok hs) :
    ∃ addr socks5 netAddr fu tl,
      splitArgs env a = .ok (addr, socks5, netAddr) ∧
      env.newFastUpstream addr socks5 netAddr = .ok fu ∧
      buildUpstreamsAux env lbl (k + 1) rest = .ok tl ∧
      hs = { fu := fu, trusted := k == 0 } :: tl := by
  unfold buildUpstreamsAux at h
  split at h
  · exact Except.noConfusion h
  · split at h
    · exact Except.noConfusion h
    · split at h
      · exact Except.noConfusion h
      · injection h with h
        rename_i x1 addr socks5 netAddr he1 x2 fu he2 x3 tl he3
        exact ⟨addr, socks5, netAddr, fu, tl, he1, he2, he3, h.symm⟩

/-- In the list built by the upstream loop started at index `k`, the handle
at position `j` carries the trust flag `k + j == 0`. -/
theorem buildUpstreamsAux_trusted {U FU D : Type} (env : Env U FU D)
    (lbl : String) (ss : List String) :
    ∀ (k : Nat) (hs : List (UpstreamHandle FU)),
      buildUpstreamsAux env lbl k ss = .ok hs →
      ∀ (j : Nat) (hj : j < hs.length),
        (hs.get ⟨j, hj⟩).trusted = (k + j == 0) := by
  induction ss with
  | nil =>
    intro k hs h j hj
    unfold buildUpstreamsAux at h
    injection h with h
    subst h
    exact absurd hj (by simp)
  | cons a rest ih =>
    intro k hs h j hj
    obtain ⟨addr, socks5, netAddr, fu, tl, _, _, h3, h4⟩ := buildUpstreamsAux_cons_elim h
    subst h4
    cases j with
    | zero => simp
    | succ j' =>
      have hj' : j' < tl.length := by simpa using hj
      have := ih (k + 1) tl h3 j' hj'
      have harith : k + 1 + j' = k + (j' + 1) := by omega
      simpa [harith] using this

/-- A successful upstream loop implies every entry's address was parsed
successfully by `splitArgs`. -/
theorem buildUpstreamsAux_ok_all {U FU D : Type} (env : Env U FU D)
    (lbl : String) (ss : List String) :
    ∀ (k : Nat) (hs : List (UpstreamHandle FU)),
      buildUpstreamsAux env lbl k ss = .ok hs →
      ∀ s ∈ ss, isOkE (splitArgs env s) = true := by
  induction ss with
  | nil => intro k hs _ s hsm; exact absurd hsm (by simp)
  | cons a rest ih =>
    intro k hs h s hsm
    obtain ⟨addr, socks5, netAddr, fu, tl, h1, _, h3, _⟩ := buildUpstreamsAux_cons_elim h
    rcases List.mem_cons.mp hsm with rfl | hm
    · rw [h1]; rfl
    · exact ih (k + 1) tl h3 s hm

/-- Inversion of one step of the domain file loop. -/
theorem batchLoadDomainFile_cons_elim {U FU D : Type} {env : Env U FU D}
    {f : String} {rest : List String} {ds : List D}
    (h : batchLoadDomainFile env (f :: rest) = .ok ds) :
    ∃ es tl, env.loadDomainFile f = .ok es ∧
      batchLoadDomainFile env rest = .ok tl ∧ ds = es ++ tl := by
  unfold batchLoadDomainFile at h
  split at h
  · exact Except.noConfusion h
  · split at h
    · exact Except.noConfusion h
    · injection h with h
      refine ⟨_, _, ?_, ?_, h.symm⟩ <;> assumption

/-- A successful domain batch load implies every file loaded successfully. -/
theorem batchLoadDomainFile_ok_all {U FU D : Type} (env : Env U FU D)
    (files : List String) :
    ∀ (ds : List D), batchLoadDomainFile env files = .ok ds →
      ∀ f ∈ files, isOkE (env.loadDomainFile f) = true := by
  induction files with
  | nil => intro ds _ f hf; exact absurd hf (by simp)
  | cons a rest ih =>
    intro ds h f hf
    obtain ⟨es, tl, h1, h2, _⟩ := batchLoadDomainFile_cons_elim h
    rcases List.mem_cons.mp hf with rfl | hm
    · rw [h1]; rfl
    · exact ih tl h2 f hm

/-- Inversion of one step of the IP file loop. -/
theorem batchLoadIPFile_cons_elim {U FU D : Type} {env : Env U FU D}
    {f : String} {rest : List String} {ns : List Nat}
    (h : batchLoadIPFile env (f :: rest) = .ok ns) :
    ∃ es tl, env.loadIPFile f = .ok es ∧
      batchLoadIPFile env rest = .ok tl ∧ ns = es ++ tl := by
  unfold batchLoadIPFile at h
  split at h
  · exact Except.noConfusion h
  · split at h
    · exact Except.noConfusion h
    · injection h with h
      refine ⟨_, _, ?_, ?_, h.symm⟩ <;> assumption

/-- A successful IP batch load implies every file loaded successfully. -/
theorem batchLoadIPFile_ok_all {U FU D : Type} (env : Env U FU D)
    (files : List String) :
    ∀ (ns : List Nat), batchLoadIPFile env files = .ok ns →
      ∀ f ∈ files, isOkE (env.loadIPFile f) = true := by
  induction files with
  | nil => intro ns _ f hf; exact absurd hf (by simp)
  | cons a rest ih =>
    intro ns h f hf
    obtain ⟨es, tl, h1, h2, _⟩ := batchLoadIPFile_cons_elim h
    rcases List.mem_cons.mp hf with rfl | hm
    · rw [h1]; rfl
    · exact ih tl h2 f hm

/-- A successful domain section implies every file in it loaded. -/
theorem loadDomainSection_ok_all {U FU D : Type} (env : Env U FU D)
    (lbl : String) (files : List String) (od : Option (List D))
    (h : loadDomainSection env lbl files = .ok od) :
    ∀ f ∈ files, isOkE (env.loadDomainFile f) = true := by
  intro f hf
  have hlen : 0 < files.length := by
    cases files with
    | nil => exact absurd hf (by simp)
    | cons a rest => simp
  unfold loadDomainSection at h
  rw [if_pos hlen] at h
  cases hb : batchLoadDomainFile env files with
  | error e => rw [hb] at h; simp at h
  | ok ds => exact batchLoadDomainFile_ok_all env files ds hb f hf

/-- A successful IP section implies every file in it loaded. -/
theorem loadIPSection_ok_all {U FU D : Type} (env : Env U FU D)
    (files : List String) (nl : List Nat)
    (h : loadIPSection env files = .ok nl) :
    ∀ f ∈ files, isOkE (env.loadIPFile f) = true := by
  intro f hf
  unfold loadIPSection at h
  cases hb : batchLoadIPFile env files with
  | error e => rw [hb] at h; simp at h
  | ok ns => exact batchLoadIPFile_ok_all env files ns hb f hf

/-- Inversion of the IP section: its output is the sort of the
concatenation of all loaded entries. -/
theorem loadIPSection_elim {U FU D : Type} {env : Env U FU D}
    {files : List String} {nl : List Nat}
    (h : loadIPSection env files = .ok nl) :
    ∃ entries, batchLoadIPFile env files = .ok entries ∧
      nl = List.insertionSort (· ≤ ·) entries := by
  unfold loadIPSection at h
  split at h
  · exact Except.noConfusion h
  · injection h with h
    refine ⟨_, ?_, h.symm⟩
    assumption

/-- C1: for every configured local upstream list and every configured
remote upstream list, exactly the handle built from the first entry
(index 0) of each list carries `trusted = true`, and every handle built
from a later entry carries `trusted = false`. -/
theorem run_first_upstream_only_trusted {U FU D : Type} (env : Env U FU D)
    (opts : GoOpts) (r : RunResult FU D) (h : run env opts = .ok r) :
    (∀ (i : Nat) (hi : i < r.handler.localUpstream.length),
       ((r.handler.localUpstream.get ⟨i, hi⟩).trusted = true ↔ i = 0)) ∧
    (∀ (i : Nat) (hi : i < r.handler.remoteUpstream.length),
       ((r.handler.remoteUpstream.get ⟨i, hi⟩).trusted = true ↔ i = 0)) := by
  obtain ⟨lu, ru, ld, rd, nl, h1, h2, h3, h4, h5, hr⟩ := run_ok_elim h
  subst hr
  unfold buildUpstreams at h1 h2
  constructor
  · intro i hi
    have ht := buildUpstreamsAux_trusted env "local" opts.localUpstream 0 lu h1 i hi
    rw [show ((assembleResult opts lu ru ld rd nl).handler.localUpstream.get
        ⟨i, hi⟩).trusted = (lu.get ⟨i, hi⟩).trusted from rfl, ht]
    simp
  · intro i hi
    have ht := buildUpstreamsAux_trusted env "remote" opts.remoteUpstream 0 ru h2 i hi
    rw [show ((assembleResult opts lu ru ld rd nl).handler.remoteUpstream.get
        ⟨i, hi⟩).trusted = (ru.get ⟨i, hi⟩).trusted from rfl, ht]
    simp

theorem run_first_upstream_only_trusted_witness :
    ((demoRes.handler.localUpstream.get ⟨0, by decide⟩).trusted = true ↔ (0 : Nat) = 0) ∧
    ((demoRes.handler.remoteUpstream.get ⟨0, by decide⟩).trusted = true ↔ (0 : Nat) = 0) :=
  ⟨(run_first_upstream_only_trusted demoEnv demoOpts demoRes demo_run_ok).1 0 (by decide),
   (run_first_upstream_only_trusted demoEnv demoOpts demoRes demo_run_ok).2 0 (by decide)⟩

/-- C2: the Answer Cache is disabled (no cache object constructed) if and
only if the configured cache capacity is at or below 8; for every capacity
strictly greater than 8 a cache is constructed. -/
theorem run_cache_disabled_iff {U FU D : Type} (env : Env U FU D)
    (opts : GoOpts) (r : RunResult FU D) (h : run env opts = .ok r) :
    (r.handler.cache = none ↔ opts.cacheSize ≤ 8) := by
  obtain ⟨lu, ru, ld, rd, nl, _, _, _, _, _, hr⟩ := run_ok_elim h
  subst hr
  show cacheOf opts.cacheSize = none ↔ opts.cacheSize ≤ 8
  unfold cacheOf
  split
  · rename_i hgt
    simp only [reduceCtorEq, false_iff]
    omega
  · rename_i hle
    simp only [true_iff]
    omega

theorem run_cache_disabled_iff_witness :
    demoRes.handler.cache = none ↔ demoOpts.cacheSize ≤ 8 :=
  run_cache_disabled_iff demoEnv demoOpts demoRes demo_run_ok

/-- C3: for every configured cache capacity c > 8, the cache has exactly 8
shards of per-shard capacity `c / 8` in Go integer division, so the total
capacity `8 * (c / 8)` is at most `c`, strictly less whenever 8 does not
divide `c`. -/
theorem run_cache_sharding {U FU D : Type} (env : Env U FU D)
    (opts : GoOpts) (r : RunResult FU D) (h : run env opts = .ok r)
    (hc : 8 < opts.cacheSize) :
    r.handler.cache = some (8, Int.tdiv opts.cacheSize 8) ∧
    8 * Int.tdiv opts.cacheSize 8 ≤ opts.cacheSize ∧
    (¬ (8 : Int) ∣ opts.cacheSize →
      8 * Int.tdiv opts.cacheSize 8 < opts.cacheSize) := by
  obtain ⟨lu, ru, ld, rd, nl, _, _, _, _, _, hr⟩ := run_ok_elim h
  subst hr
  have htd : Int.tdiv opts.cacheSize 8 = opts.cacheSize / 8 := by
    obtain ⟨m, hm⟩ := Int.eq_ofNat_of_zero_le (by omega : (0 : Int) ≤ opts.cacheSize)
    rw [hm]; rfl
  refine ⟨?_, ?_, ?_⟩
  · show cacheOf opts.cacheSize = _
    unfold cacheOf
    rw [if_pos hc]
  · rw [htd]; omega
  · intro hd; rw [htd] at *; omega

theorem run_cache_sharding_witness :
    demoRes.handler.cache = some (8, Int.tdiv demoOpts.cacheSize 8) ∧
    8 * Int.tdiv demoOpts.cacheSize 8 ≤ demoOpts.cacheSize ∧
    (¬ (8 : Int) ∣ demoOpts.cacheSize →
      8 * Int.tdiv demoOpts.cacheSize 8 < demoOpts.cacheSize) :=
  run_cache_sharding demoEnv demoOpts demoRes demo_run_ok (by decide)

/-- C4: the grace window equals the configured local-latency value times
one millisecond (10^6 nanoseconds): whenever the product fits in `int64`,
the handler's `localLatency` is exactly `v * 1ms`, with no clamping of
zero or negative values. -/
theorem run_local_latency_ms {U FU D : Type} (env : Env U FU D)
    (opts : GoOpts) (r : RunResult FU D) (h : run env opts = .ok r)
    (hlo : -9223372036854775808 ≤ 1000000 * opts.localLatency)
    (hhi : 1000000 * opts.localLatency < 9223372036854775808) :
    r.handler.localLatency = 1000000 * opts.localLatency := by
  obtain ⟨lu, ru, ld, rd, nl, _, _, _, _, _, hr⟩ := run_ok_elim h
  subst hr
  show localLatencyNs opts.localLatency = 1000000 * opts.localLatency
  unfold localLatencyNs wrap64
  omega

theorem run_local_latency_ms_witness :
    demoRes.handler.localLatency = 1000000 * demoOpts.localLatency :=
  run_local_latency_ms demoEnv demoOpts demoRes demo_run_ok (by decide) (by decide)

/-- C5: every configuration error is fatal at startup: if any upstream
entry's address fails to parse, or any domain or IP matcher source file
fails to load, `run` does not return a built configuration. -/
theorem run_config_errors_fatal {U FU D : Type} (env : Env U FU D)
    (opts : GoOpts)
    (hbad : (∃ s ∈ opts.localUpstream, isOkE (splitArgs env s) = false) ∨
            (∃ s ∈ opts.remoteUpstream, isOkE (splitArgs env s) = false) ∨
            (∃ f ∈ opts.localDomain, isOkE (env.loadDomainFile f) = false) ∨
            (∃ f ∈ opts.remoteDomain, isOkE (env.loadDomainFile f) = false) ∨
            (∃ f ∈ opts.localIP, isOkE (env.loadIPFile f) = false)) :
    isOkE (run env opts) = false := by
  cases hrun : run env opts with
  | error e => rfl
  | ok r =>
    exfalso
    obtain ⟨lu, ru, ld, rd, nl, h1, h2, h3, h4, h5, _⟩ := run_ok_elim hrun
    unfold buildUpstreams at h1 h2
    rcases hbad with ⟨s, hm, hf⟩ | ⟨s, hm, hf⟩ | ⟨f, hm, hf⟩ | ⟨f, hm, hf⟩ | ⟨f, hm, hf⟩
    · rw [buildUpstreamsAux_ok_all env "local" opts.localUpstream 0 lu h1 s hm] at hf
      exact Bool.noConfusion hf
    · rw [buildUpstreamsAux_ok_all env "remote" opts.remoteUpstream 0 ru h2 s hm] at hf
      exact Bool.noConfusion hf
    · rw [loadDomainSection_ok_all env "local" opts.localDomain ld h3 f hm] at hf
      exact Bool.noConfusion hf
    · rw [loadDomainSection_ok_all env "remote" opts.remoteDomain rd h4 f hm] at hf
      exact Bool.noConfusion hf
    · rw [loadIPSection_ok_all env opts.localIP nl h5 f hm] at hf
      exact Bool.noConfusion hf

theorem run_config_errors_fatal_witness :
    (∃ f ∈ demoOpts.localIP, isOkE (badEnv.loadIPFile f) = false) ∧
    isOkE (run badEnv demoOpts) = false :=
  have hb : ∃ f ∈ demoOpts.localIP, isOkE (badEnv.loadIPFile f) = false :=
    ⟨"cn.txt", by simp [demoOpts], rfl⟩
  ⟨hb, run_config_errors_fatal badEnv demoOpts (.inr (.inr (.inr (.inr hb))))⟩

/-- C6: the netlist handed to the A/AAAA matcher is sorted after all local
IP files are loaded and before it is wrapped: the handler's matcher list is
the sort of the concatenation of every loaded file's entries, hence
sorted. -/
theorem run_localip_sorted {U FU D : Type} (env : Env U FU D)
    (opts : GoOpts) (r : RunResult FU D) (h : run env opts = .ok r) :
    ∃ entries, batchLoadIPFile env opts.localIP = .ok entries ∧
      r.handler.localIP = List.insertionSort (· ≤ ·) entries ∧
      List.Sorted (· ≤ ·) r.handler.localIP := by
  obtain ⟨lu, ru, ld, rd, nl, _, _, _, _, h5, hr⟩ := run_ok_elim h
  subst hr
  obtain ⟨entries, hb, hnl⟩ := loadIPSection_elim h5
  refine ⟨entries, hb, ?_, ?_⟩
  · show nl = List.insertionSort (· ≤ ·) entries
    exact hnl
  · show List.Sorted (· ≤ ·) nl
    rw [hnl]
    exact List.sorted_insertionSort _ entries

theorem run_localip_sorted_witness :
    ∃ entries, batchLoadIPFile demoEnv demoOpts.localIP = .ok entries ∧
      demoRes.handler.localIP = List.insertionSort (· ≤ ·) entries ∧
      List.Sorted (· ≤ ·) demoRes.handler.localIP :=
  run_localip_sorted demoEnv demoOpts demoRes demo_run_ok

/-- C7: startup creates exactly two servers, one UDP and one TCP, both on
the configured server address and both holding the same handler. -/
theorem run_two_servers {U FU D : Type} (env : Env U FU D)
    (opts : GoOpts) (r : RunResult FU D) (h : run env opts = .ok r) :
    r.servers =
      [ { network := "udp", addr := opts.serverAddr, handler := r.handler },
        { network := "tcp", addr := opts.serverAddr, handler := r.handler } ] := by
  obtain ⟨lu, ru, ld, rd, nl, _, _, _, _, _, hr⟩ := run_ok_elim h
  subst hr
  rfl

theorem run_two_servers_witness :
    demoRes.servers =
      [ { network := "udp", addr := demoOpts.serverAddr, handler := demoRes.handler },
        { network := "tcp", addr := demoOpts.serverAddr, handler := demoRes.handler } ] :=
  run_two_servers demoEnv demoOpts demoRes demo_run_ok

/-- C8: a string without "://" is parsed with the implicit scheme
`udp://`; on a successful URL parse, the returned socks5 and netAddr are
the query parameters `socks5` and `netaddr`, and the returned addr is the
URL rendered after its raw query is cleared. -/
theorem splitArgs_scheme_and_query {U FU D : Type} (env : Env U FU D)
    (s : String) :
    (goContains s "://" = false →
       splitArgs env s = splitArgsURL env ("udp://" ++ s)) ∧
    (∀ u, env.urlParse (schemeNormalize s) = .ok u →
       splitArgs env s =
         .ok (env.urlRender (env.urlClearRawQuery u),
              env.urlQueryGet u "socks5", env.urlQueryGet u "netaddr")) := by
  constructor
  · intro hnc
    simp [splitArgs, schemeNormalize, hnc]
  · intro u hu
    unfold splitArgs splitArgsURL
    rw [hu]

theorem splitArgs_scheme_and_query_witness :
    goContains "8.8.8.8" "://" = false ∧
    splitArgs demoEnv "8.8.8.8" = .ok ("udp://8.8.8.8", "", "") :=
  ⟨rfl, (splitArgs_scheme_and_query demoEnv "8.8.8.8").2 "udp://8.8.8.8" rfl⟩

/-- C9: an empty local-domain file list leaves the handler's local-domain
matcher `nil` (none), and likewise for the remote-domain matcher. -/
theorem run_empty_domain_nil {U FU D : Type} (env : Env U FU D)
    (opts : GoOpts) (r : RunResult FU D) (h : run env opts = .ok r) :
    (opts.localDomain = [] → r.handler.localDomain = none) ∧
    (opts.remoteDomain = [] → r.handler.remoteDomain = none) := by
  obtain ⟨lu, ru, ld, rd, nl, _, _, h3, h4, _, hr⟩ := run_ok_elim h
  subst hr
  constructor
  · intro hnil
    rw [hnil] at h3
    have he : loadDomainSection env "local" ([] : List String) = .ok none := rfl
    rw [he] at h3
    injection h3 with h3
    show ld = none
    exact h3.symm
  · intro hnil
    rw [hnil] at h4
    have he : loadDomainSection env "remote" ([] : List String) = .ok none := rfl
    rw [he] at h4
    injection h4 with h4
    show rd = none
    exact h4.symm

theorem run_empty_domain_nil_witness :
    demoRes.handler.localDomain = none ∧ demoRes.handler.remoteDomain = none :=
  ⟨(run_empty_domain_nil demoEnv demoOpts demoRes demo_run_ok).1 rfl,
   (run_empty_domain_nil demoEnv demoOpts demoRes demo_run_ok).2 rfl⟩

/-- C10: with the local-latency flag omitted, the flag defaults to 50 and
the grace window is exactly 50 milliseconds (50,000,000 nanoseconds). -/
theorem local_latency_default_50ms :
    resolveLocalLatencyFlag none = 50 ∧
    localLatencyNs (resolveLocalLatencyFlag none) = 50000000 :=
  ⟨rfl, by decide⟩

end MosdnsCn
